/-
Verification of the NetSource on-air relay appliance.

Shallow embedding of the two core subsystems:
 * the recurrence/schedule engine (`src/services/schedule.py`), built on
   weekly `dateutil.rrule` recurrences with inclusive `before`/`after`
   queries; and
 * the duplex audio engine (`src/services/audio.py`) together with its
   sample buffers (`src/utils/audio/buffers.py`).

Instants are modelled as integers counting seconds, with second 0 being a
Monday 00:00:00 (Python's `datetime.weekday()` numbers Monday as 0, matching
`DayOfWeek` in `src/models/settings.py`).  Audio samples are modelled as
integers (the int16/int8 values stored in the numpy arrays; the buffer
operations only move samples around, they never do arithmetic on them).
-/
import Mathlib

namespace NetSource

/-! ## Weekly recurrence arithmetic (embedding of `dateutil.rrule`)

`rrule(WEEKLY, dtstart, byweekday=d, byhour=h, byminute=m, bysecond=s)`
enumerates every instant `t ≥ first occurrence at or after dtstart` whose
day-of-week and time-of-day match the pattern, i.e. all `t ≥ dtstart` with
`t ≡ anchor [mod 604800]` where `anchor` encodes `(d, h, m, s)` as seconds
from Monday 00:00:00.  `.before(dt, True)` returns the last occurrence
`≤ dt` (or `None`), `.after(dt, True)` the first occurrence `≥ dt`. -/

def secondsPerWeek : Int := 604800

/-- Instant `t` lands on the weekly pattern encoded by `anchor` (same weekday and
time-of-day). -/
def isOccurrence (anchor t : Int) : Prop :=
  t % secondsPerWeek = anchor % secondsPerWeek

instance (anchor t : Int) : Decidable (isOccurrence anchor t) := by
  unfold isOccurrence; infer_instance

/-- First occurrence of the weekly pattern at or after `dtstart`: the first
element the `rrule` iterator yields. -/
def firstOcc (dtstart anchor : Int) : Int :=
  dtstart + (anchor - dtstart) % secondsPerWeek

/-- Embedding of `rrule(WEEKLY, dtstart, ...).before(dt, inc=True)`: the last occurrence
at or before `dt`, `none` when the recurrence has not started by `dt`. -/
def rruleBeforeInc (dtstart anchor dt : Int) : Option Int :=
  if dt < firstOcc dtstart anchor then none
  else some (dt - (dt - anchor) % secondsPerWeek)

/-- Embedding of `rrule(WEEKLY, dtstart, ...).after(dt, inc=True)`: the first occurrence
at or after `dt` (the recurrence is infinite, so this always exists). -/
def rruleAfterInc (dtstart anchor dt : Int) : Int :=
  let c := dt + (anchor - dt) % secondsPerWeek
  if c < firstOcc dtstart anchor then firstOcc dtstart anchor else c

lemma secondsPerWeek_pos : (0 : Int) < secondsPerWeek := by decide

lemma emod_week_nonneg (x : Int) : 0 ≤ x % secondsPerWeek :=
  Int.emod_nonneg x (by decide)

lemma emod_week_lt (x : Int) : x % secondsPerWeek < secondsPerWeek :=
  Int.emod_lt_of_pos x secondsPerWeek_pos

lemma emod_week_le_self {x : Int} (hx : 0 ≤ x) : x % secondsPerWeek ≤ x := by
  have hdiv : 0 ≤ x / secondsPerWeek := Int.ediv_nonneg hx (le_of_lt secondsPerWeek_pos)
  have hmul : 0 ≤ secondsPerWeek * (x / secondsPerWeek) :=
    mul_nonneg (le_of_lt secondsPerWeek_pos) hdiv
  have hdef := Int.emod_def x secondsPerWeek
  omega

/-- Subtracting a congruent instant does not change the residue. -/
lemma emod_week_sub_eq {a t dt : Int} (h : isOccurrence a t) :
    (dt - a) % secondsPerWeek = (dt - t) % secondsPerWeek := by
  unfold isOccurrence at h
  rw [Int.sub_emod dt a, ← h, ← Int.sub_emod]

/-- The value produced by `rruleBeforeInc` (when `some`) is an occurrence,
is at or before `dt`, and dominates every occurrence at or before `dt`:
it is the most recent occurrence of the pattern at or before `dt`. -/
lemma floorOcc_spec (anchor dt : Int) :
    isOccurrence anchor (dt - (dt - anchor) % secondsPerWeek) ∧
      dt - (dt - anchor) % secondsPerWeek ≤ dt ∧
      ∀ t, isOccurrence anchor t → t ≤ dt →
        t ≤ dt - (dt - anchor) % secondsPerWeek := by
  refine ⟨?_, ?_, ?_⟩
  · unfold isOccurrence
    have hdef := Int.emod_def (dt - anchor) secondsPerWeek
    have : dt - (dt - anchor) % secondsPerWeek =
        anchor + secondsPerWeek * ((dt - anchor) / secondsPerWeek) := by omega
    rw [this, Int.add_mul_emod_self_left]
  · have := emod_week_nonneg (dt - anchor)
    omega
  · intro t ht htle
    have hsub := @emod_week_sub_eq anchor t dt ht
    have hle : (dt - t) % secondsPerWeek ≤ dt - t :=
      emod_week_le_self (by omega)
    omega

/-- The dual: `dt + (anchor - dt) % week` is the first occurrence of the
pattern at or after `dt`. -/
lemma ceilOcc_spec (anchor dt : Int) :
    isOccurrence anchor (dt + (anchor - dt) % secondsPerWeek) ∧
      dt ≤ dt + (anchor - dt) % secondsPerWeek ∧
      ∀ t, isOccurrence anchor t → dt ≤ t →
        dt + (anchor - dt) % secondsPerWeek ≤ t := by
  refine ⟨?_, ?_, ?_⟩
  · unfold isOccurrence
    have hdef := Int.emod_def (anchor - dt) secondsPerWeek
    have : dt + (anchor - dt) % secondsPerWeek =
        anchor + secondsPerWeek * (-((anchor - dt) / secondsPerWeek)) := by
      rw [mul_neg]
      omega
    rw [this, Int.add_mul_emod_self_left]
  · have := emod_week_nonneg (anchor - dt)
    omega
  · intro t ht htge
    have hsub : (anchor - dt) % secondsPerWeek = (t - dt) % secondsPerWeek := by
      unfold isOccurrence at ht
      rw [Int.sub_emod anchor dt, ← ht, ← Int.sub_emod]
    have hle : (t - dt) % secondsPerWeek ≤ t - dt :=
      emod_week_le_self (by omega)
    omega

/-- Indeed `firstOcc` really is the least occurrence at or after `dtstart`. -/
lemma firstOcc_spec (dtstart anchor : Int) :
    isOccurrence anchor (firstOcc dtstart anchor) ∧
      dtstart ≤ firstOcc dtstart anchor ∧
      ∀ t, isOccurrence anchor t → dtstart ≤ t → firstOcc dtstart anchor ≤ t :=
  ceilOcc_spec anchor dtstart

/-! ## ScheduleService window computation (`src/services/schedule.py`)

`ScheduleService.start` (lines 84-112) evaluates the weekly on-air window:
`last_start` is `rrule(WEEKLY, now - 1 week, <day_start/time_start>)
.before(now, True)`, `following_finish` is `rrule(WEEKLY, now - 1 week,
<day_end/time_end>).after(last_start, True)`, and the service enters
`start_show` exactly when `now < following_finish`.  A `(day, time)`
configuration pair is encoded as its anchor: seconds from Monday 00:00:00. -/

/-- Seconds-from-Monday-midnight anchor of a `(DayOfWeek, time)` settings
pair (`DayOfWeek`: Monday = 0 ... Sunday = 6). -/
def anchorOf (day hour minute second : Nat) : Int :=
  ((day * 86400 + hour * 3600 + minute * 60 + second : Nat) : Int)

namespace ScheduleService

/-- Value `last_start` of `ScheduleService.start` (schedule.py lines 85-92). -/
def last_start (day_time_start now : Int) : Option Int :=
  rruleBeforeInc (now - secondsPerWeek) day_time_start now

/-- Value `following_finish` of `ScheduleService.start` (schedule.py lines 97-104). -/
def following_finish (day_time_start day_time_end now : Int) : Option Int :=
  (last_start day_time_start now).map
    (fun ls => rruleAfterInc (now - secondsPerWeek) day_time_end ls)

/-- The branch on schedule.py line 109: `start_show` is taken (the window is
open) exactly when `datetime.now() < following_finish`. -/
def window_open (day_time_start day_time_end now : Int) : Bool :=
  match following_finish day_time_start day_time_end now with
  | some ff => decide (now < ff)
  | none => false

/-- Value `next_start` of `ScheduleService.end_show` (schedule.py lines 174-181):
`rrule(WEEKLY, now, <day_start/time_start>).after(now, True)`. -/
def next_start (day_time_start now : Int) : Int :=
  rruleAfterInc now day_time_start now

/-- Value `beeps_end` of `ScheduleService.end_show` (schedule.py line 186):
`next_start + timedelta(seconds=-10)`. -/
def beeps_end (day_time_start now : Int) : Int :=
  next_start day_time_start now + (-10)

end ScheduleService

/-- Refinement target, following the words of the spec: `t` is the most
recent occurrence of the pattern at or before `now`. -/
def specMostRecentAtOrBefore (anchor now t : Int) : Prop :=
  isOccurrence anchor t ∧ t ≤ now ∧
    ∀ u, isOccurrence anchor u → u ≤ now → u ≤ t

/-- Refinement target, following the words of the spec: `t` is the first
occurrence of the pattern at or after the instant `lo`. -/
def specFirstAtOrAfter (anchor lo t : Int) : Prop :=
  isOccurrence anchor t ∧ lo ≤ t ∧
    ∀ u, isOccurrence anchor u → lo ≤ u → t ≤ u

/-- Indeed `last_start` always finds an occurrence (the search starts a full week
back) and it is the most recent occurrence at or before `now`. -/
lemma last_start_spec (a now : Int) :
    ScheduleService.last_start a now =
        some (now - (now - a) % secondsPerWeek) ∧
      specMostRecentAtOrBefore a now (now - (now - a) % secondsPerWeek) := by
  have hfloor := floorOcc_spec a now
  constructor
  · unfold ScheduleService.last_start rruleBeforeInc
    rw [if_neg]
    unfold firstOcc
    have := emod_week_lt (a - (now - secondsPerWeek))
    omega
  · exact ⟨hfloor.1, hfloor.2.1, hfloor.2.2⟩

/-- Indeed `following_finish` is the first occurrence of the end pattern at or
after `last_start`. -/
lemma following_finish_spec (a b now ls : Int)
    (hls : ScheduleService.last_start a now = some ls) :
    ScheduleService.following_finish a b now =
        some (ls + (b - ls) % secondsPerWeek) ∧
      specFirstAtOrAfter b ls (ls + (b - ls) % secondsPerWeek) := by
  have hceil := ceilOcc_spec b ls
  have hlsval := (last_start_spec a now).1
  rw [hls] at hlsval
  have hlseq : ls = now - (now - a) % secondsPerWeek :=
    Option.some.inj hlsval
  constructor
  · have hmap : ScheduleService.following_finish a b now =
        some (rruleAfterInc (now - secondsPerWeek) b ls) := by
      unfold ScheduleService.following_finish
      rw [hls]
      rfl
    rw [hmap]
    unfold rruleAfterInc
    rw [if_neg]
    have hfirst := firstOcc_spec (now - secondsPerWeek) b
    have hnotlt : firstOcc (now - secondsPerWeek) b ≤
        ls + (b - ls) % secondsPerWeek := by
      apply hfirst.2.2
      · exact hceil.1
      · have h1 := emod_week_lt (now - a)
        have h2 := emod_week_nonneg (b - ls)
        omega
    omega
  · exact hceil

/-- C1.  The window decision of `ScheduleService.start`: `last_start` is the
most recent occurrence of `(day_start, time_start)` at or before `now`
(the one-week-back search always finds it), `following_finish` is the first
occurrence of `(day_end, time_end)` at or after `last_start`, and the
window is open (the `start_show` branch is taken) iff `now <
following_finish`.  In particular the wrap-around window Sunday 23:00 →
Monday 01:00 is open at Monday 00:30 and closed at Monday 02:00. -/
theorem c1_schedule_window (a b now ls ff : Int)
    (hls : ScheduleService.last_start a now = some ls)
    (hff : ScheduleService.following_finish a b now = some ff) :
    specMostRecentAtOrBefore a now ls ∧
      specFirstAtOrAfter b ls ff ∧
      (ScheduleService.window_open a b now = true ↔ now < ff) ∧
      ScheduleService.window_open (anchorOf 6 23 0 0) (anchorOf 0 1 0 0)
        (secondsPerWeek + anchorOf 0 0 30 0) = true ∧
      ScheduleService.window_open (anchorOf 6 23 0 0) (anchorOf 0 1 0 0)
        (secondsPerWeek + anchorOf 0 2 0 0) = false := by
  have h1 := last_start_spec a now
  have hlsval : ls = now - (now - a) % secondsPerWeek := by
    rw [hls] at h1
    exact Option.some.inj h1.1
  have h2 := following_finish_spec a b now ls hls
  have hffval : ff = ls + (b - ls) % secondsPerWeek := by
    rw [hff] at h2
    exact Option.some.inj h2.1
  refine ⟨?_, ?_, ?_, ?_, ?_⟩
  · rw [hlsval]; exact h1.2
  · rw [hffval]; exact h2.2
  · unfold ScheduleService.window_open
    rw [hff]
    simp
  · decide
  · decide

/-- Witness for C1, at the wrap-around configuration from the spec:
start anchor Sunday 23:00 (601200 s), end anchor Monday 01:00 (3600 s),
`now` = Monday 00:30 of the following week (606600 s).  `last_start`
resolves to Sunday 23:00 (601200 s), `following_finish` to Monday 01:00
(608400 s), and the window is open. -/
theorem c1_schedule_window_witness :
    specMostRecentAtOrBefore 601200 606600 601200 ∧
      specFirstAtOrAfter 3600 601200 608400 ∧
      ScheduleService.window_open 601200 3600 606600 = true := by
  have h := c1_schedule_window 601200 3600 606600 601200 608400
    (by decide) (by decide)
  exact ⟨h.1, h.2.1, h.2.2.1.mpr (by decide)⟩

/-! ## Chime (bleep) scheduling (`ScheduleService.end_show`, lines 174-194)

`end_show` arms six per-minute jobs through the third-party `schedule`
library: `schedule.every().minute.at(":00").until(beeps_end).do(beep_long)`
and the same at `":10" ... ":50"` with `beep_short`. -/

/-- Modelled from the spec: the expiry rule of the third-party `schedule`
library's `.until(deadline)` job registration is not part of this
repository's sources; the spec states that each chime instant is "valid
only while `< cutoff`".  A job registered at per-minute second offset
`offset_seconds` with deadline `deadline` fires at instant `t` exactly when
`t` matches the offset and lies before the deadline. -/
def chimeJobActive (offset_seconds deadline t : Int) : Bool :=
  decide (t % 60 = offset_seconds) && decide (t < deadline)

namespace ScheduleService

/-- The long chime job armed by `end_show` (schedule.py line 189). -/
def long_chime_scheduled (day_time_start now t : Int) : Bool :=
  chimeJobActive 0 (beeps_end day_time_start now) t

/-- The five short chime jobs armed by `end_show` (lines 190-194). -/
def short_chime_scheduled (day_time_start now t : Int) : Bool :=
  [(10 : Int), 20, 30, 40, 50].any
    (fun o => chimeJobActive o (beeps_end day_time_start now) t)

/-- Some chime (long or short) fires at instant `t`. -/
def chime_scheduled (day_time_start now t : Int) : Bool :=
  long_chime_scheduled day_time_start now t ||
    short_chime_scheduled day_time_start now t

end ScheduleService

/-- Indeed `next_start` is the first occurrence of the start pattern at or after
`now` (dtstart and the query instant of the `rrule` coincide here). -/
lemma next_start_spec (a now : Int) :
    ScheduleService.next_start a now = now + (a - now) % secondsPerWeek ∧
      specFirstAtOrAfter a now (ScheduleService.next_start a now) := by
  have hval : ScheduleService.next_start a now =
      now + (a - now) % secondsPerWeek := by
    unfold ScheduleService.next_start rruleAfterInc firstOcc
    simp
  refine ⟨hval, ?_⟩
  rw [hval]
  exact ceilOcc_spec a now

/-- C7.  The chime cutoff armed by `end_show` is exactly `next_start - 10`
seconds where `next_start` is the first occurrence of
`(day_start, time_start)` at or after `now`; a chime fires at `t` iff `t`
falls on one of the per-minute second offsets {0,10,20,30,40,50} and `t`
is before the cutoff (long chime exactly at offset :00, short chimes at
the others); hence no chime instant is at or after the cutoff. -/
theorem c7_chime_schedule (a now t : Int) :
    specFirstAtOrAfter a now (ScheduleService.next_start a now) ∧
      ScheduleService.beeps_end a now = ScheduleService.next_start a now - 10 ∧
      (ScheduleService.long_chime_scheduled a now t = true ↔
        t % 60 = 0 ∧ t < ScheduleService.next_start a now - 10) ∧
      (ScheduleService.short_chime_scheduled a now t = true ↔
        (t % 60 = 10 ∨ t % 60 = 20 ∨ t % 60 = 30 ∨ t % 60 = 40 ∨ t % 60 = 50) ∧
          t < ScheduleService.next_start a now - 10) ∧
      (ScheduleService.chime_scheduled a now t = true →
        t < ScheduleService.beeps_end a now) := by
  have hbe : ScheduleService.beeps_end a now =
      ScheduleService.next_start a now - 10 := by
    unfold ScheduleService.beeps_end
    omega
  refine ⟨(next_start_spec a now).2, hbe, ?_, ?_, ?_⟩
  · unfold ScheduleService.long_chime_scheduled chimeJobActive
    rw [hbe]
    simp [and_comm]
  · unfold ScheduleService.short_chime_scheduled chimeJobActive
    rw [hbe]
    simp only [List.any_cons, List.any_nil, Bool.or_false, Bool.or_eq_true,
      Bool.and_eq_true, decide_eq_true_eq]
    constructor
    · rintro (⟨h1, h2⟩ | ⟨h1, h2⟩ | ⟨h1, h2⟩ | ⟨h1, h2⟩ | ⟨h1, h2⟩) <;>
        exact ⟨by omega, h2⟩
    · rintro ⟨h1, h2⟩
      rcases h1 with h | h | h | h | h
      · exact Or.inl ⟨h, h2⟩
      · exact Or.inr (Or.inl ⟨h, h2⟩)
      · exact Or.inr (Or.inr (Or.inl ⟨h, h2⟩))
      · exact Or.inr (Or.inr (Or.inr (Or.inl ⟨h, h2⟩)))
      · exact Or.inr (Or.inr (Or.inr (Or.inr ⟨h, h2⟩)))
  · unfold ScheduleService.chime_scheduled ScheduleService.long_chime_scheduled
      ScheduleService.short_chime_scheduled chimeJobActive
    simp only [List.any_cons, List.any_nil, Bool.or_false, Bool.or_eq_true,
      Bool.and_eq_true, decide_eq_true_eq]
    rintro (⟨_, h⟩ | ⟨_, h⟩ | ⟨_, h⟩ | ⟨_, h⟩ | ⟨_, h⟩ | ⟨_, h⟩) <;> exact h

/-- Witness for C7 at the spec's wrap-around configuration: after the
Monday 02:00 close (now = 612000 s), the next start resolves to the
following Sunday 23:00 (1206000 s, seven days later), the cutoff is
1205990 s, and the chime offset instant 1205990 s (`:50`) is exactly at
the cutoff and therefore not scheduled. -/
theorem c7_chime_schedule_witness :
    ScheduleService.next_start 601200 612000 = 1206000 ∧
      ScheduleService.beeps_end 601200 612000 = 1205990 ∧
      ScheduleService.chime_scheduled 601200 612000 1205990 = false ∧
      ScheduleService.chime_scheduled 601200 612000 1205930 = true := by
  have h := c7_chime_schedule 601200 612000 1205990
  have hns : ScheduleService.next_start 601200 612000 = 1206000 := by decide
  refine ⟨hns, by rw [h.2.1, hns]; decide, ?_, ?_⟩
  · by_contra hcon
    have htrue : ScheduleService.chime_scheduled 601200 612000 1205990 = true := by
      cases hb : ScheduleService.chime_scheduled 601200 612000 1205990
      · exact absurd hb hcon
      · rfl
    have := h.2.2.2.2 htrue
    rw [h.2.1, hns] at this
    omega
  · have h2 := c7_chime_schedule 601200 612000 1205930
    have hshort : ScheduleService.short_chime_scheduled 601200 612000 1205930 = true := by
      apply h2.2.2.2.1.mpr
      rw [hns]
      constructor
      · right; right; right; right; decide
      · decide
    unfold ScheduleService.chime_scheduled
    rw [hshort]
    simp

/-! ## Sample buffers (`src/utils/audio/buffers.py`)

A stereo buffer holds two per-channel sample sequences.  numpy operations
map to list operations: `np.append` is concatenation, `a[:n]` is `take n`,
`a[n:]` is `drop n`, `np.array([0] * n)` is `replicate n 0`. -/

/-- The relay (play-through) buffer.  `samples_left`/`samples_right` are the
two private numpy arrays. -/
structure PlayThroughSampleBuffer where
  samples_left : List Int
  samples_right : List Int
deriving DecidableEq

namespace PlayThroughSampleBuffer

/-- Method `__clear_buffer(preload_length)` (buffers.py lines 34-36); the Python
default argument for `preload_length` is 0. -/
def clear_buffer (preload_length : Nat) : PlayThroughSampleBuffer :=
  ⟨List.replicate preload_length 0, List.replicate preload_length 0⟩

/-- Constructor `__init__(buffer_type, preload_length=500)` (lines 27-32): the fresh
buffer is the cleared buffer at the *constructor* preload (default 500). -/
def init (preload_length : Nat) : PlayThroughSampleBuffer :=
  clear_buffer preload_length

/-- Method `read(sample_count)` (lines 38-60).  Returns the per-channel blocks and
the buffer afterwards.  On underrun the existing content is left-padded
with zeros and the buffer is cleared via `__clear_buffer()` — whose default
preload is 0, i.e. the buffer comes back empty. -/
def read (b : PlayThroughSampleBuffer) (sample_count : Nat) :
    (List Int × List Int) × PlayThroughSampleBuffer :=
  let buffer_length := min b.samples_left.length b.samples_right.length
  if buffer_length < sample_count then
    let underrun_length := sample_count - buffer_length
    let left_pad := List.replicate underrun_length 0
    ((left_pad ++ b.samples_left, left_pad ++ b.samples_right), clear_buffer 0)
  else
    ((b.samples_left.take sample_count, b.samples_right.take sample_count),
      ⟨b.samples_left.drop sample_count, b.samples_right.drop sample_count⟩)

/-- Method `write(samples)` (lines 62-76).  The length mismatch between the two
channels is only logged ("assuming min"); both arrays are appended whole. -/
def write (b : PlayThroughSampleBuffer) (left right : List Int) :
    PlayThroughSampleBuffer :=
  ⟨b.samples_left ++ left, b.samples_right ++ right⟩

end PlayThroughSampleBuffer

/-- The tone buffer: the two immutable per-channel sequences produced by
`__generate_samples`.  The claims below hold for every generated content, so
the buffer is parametrised by its sample sequences. -/
structure ToneSampleBuffer where
  samples_left : List Int
  samples_right : List Int
deriving DecidableEq

namespace ToneSampleBuffer

/-- Method `read(sample_count)` (buffers.py lines 118-130): an over-ask returns
both whole arrays and — unlike the relay buffer — neither pads nor mutates
the buffer. -/
def read (b : ToneSampleBuffer) (sample_count : Nat) :
    (List Int × List Int) × ToneSampleBuffer :=
  let buffer_length := min b.samples_left.length b.samples_right.length
  if buffer_length < sample_count then
    ((b.samples_left, b.samples_right), b)
  else
    ((b.samples_left.take sample_count, b.samples_right.take sample_count),
      ⟨b.samples_left.drop sample_count, b.samples_right.drop sample_count⟩)

/-- Method `write(samples)` (lines 132-133): a logged no-op. -/
def write (b : ToneSampleBuffer) (_left _right : List Int) : ToneSampleBuffer :=
  b

end ToneSampleBuffer

set_option maxRecDepth 10000 in
/-- C2 counterexample.  A freshly constructed relay buffer (preload 500)
read past its content (501 samples requested) returns the full 501-sample
zero block, but afterwards the buffer is *empty* — `read` resets it via
`__clear_buffer()` with the default preload 0, not to the 500-sample
preload-silence state the claim describes. -/
theorem c2_counterexample :
    ((PlayThroughSampleBuffer.init 500).read 501).2 =
        PlayThroughSampleBuffer.clear_buffer 0 ∧
      ((PlayThroughSampleBuffer.init 500).read 501).2 ≠
        PlayThroughSampleBuffer.init 500 := by
  decide

/-- C2 (amended).  Reading `k > m` samples from a relay buffer holding `m`
samples per channel returns per channel a block of length exactly `k` whose
first `k - m` samples are zero and whose last `m` samples are the buffered
content in order; afterwards the buffer is reset to the *empty* state
(`__clear_buffer()` with its default preload 0), not to the constructor's
preload-silence state.  The caller never receives a short block. -/
theorem c2_underrun_padded_block (l r : List Int) (m k : Nat)
    (hl : l.length = m) (hr : r.length = m) (hk : m < k) :
    (PlayThroughSampleBuffer.read ⟨l, r⟩ k).1 =
        (List.replicate (k - m) 0 ++ l, List.replicate (k - m) 0 ++ r) ∧
      (PlayThroughSampleBuffer.read ⟨l, r⟩ k).1.1.length = k ∧
      (PlayThroughSampleBuffer.read ⟨l, r⟩ k).1.2.length = k ∧
      (PlayThroughSampleBuffer.read ⟨l, r⟩ k).2 =
        PlayThroughSampleBuffer.clear_buffer 0 := by
  have hmin : min l.length r.length = m := by rw [hl, hr]; exact min_self m
  unfold PlayThroughSampleBuffer.read
  rw [hmin]
  rw [if_pos hk]
  refine ⟨rfl, ?_, ?_, rfl⟩ <;>
    simp [hl, hr] <;> omega

/-- Witness for C2 (amended): a buffer holding ([5, 6], [7, 8]) read for 3
samples yields ([0, 5, 6], [0, 7, 8]) and the empty buffer. -/
theorem c2_underrun_witness :
    (PlayThroughSampleBuffer.read ⟨[5, 6], [7, 8]⟩ 3).1 =
        ([0, 5, 6], [0, 7, 8]) ∧
      (PlayThroughSampleBuffer.read ⟨[5, 6], [7, 8]⟩ 3).2 =
        PlayThroughSampleBuffer.clear_buffer 0 := by
  have h := c2_underrun_padded_block [5, 6] [7, 8] 2 3 rfl rfl
    (by decide)
  exact ⟨h.1, h.2.2.2⟩

/-! ## Relay buffer round trips (C8, C9) -/

/-- A sequence of `write` calls, each a stereo pair of blocks. -/
def writeAll (b : PlayThroughSampleBuffer) :
    List (List Int × List Int) → PlayThroughSampleBuffer
  | [] => b
  | w :: ws => writeAll (b.write w.1 w.2) ws

/-- A sequence of `read` calls with the given sample counts; returns the
concatenated per-channel outputs and the buffer afterwards. -/
def readAll (b : PlayThroughSampleBuffer) :
    List Nat → (List Int × List Int) × PlayThroughSampleBuffer
  | [] => (([], []), b)
  | k :: ks =>
      let step := b.read k
      let rest := readAll step.2 ks
      ((step.1.1 ++ rest.1.1, step.1.2 ++ rest.1.2), rest.2)

lemma writeAll_eq (ws : List (List Int × List Int)) :
    ∀ b : PlayThroughSampleBuffer,
      writeAll b ws =
        ⟨b.samples_left ++ (ws.map Prod.fst).flatten,
          b.samples_right ++ (ws.map Prod.snd).flatten⟩ := by
  induction ws with
  | nil => intro b; simp [writeAll]
  | cons w ws ih =>
      intro b
      rw [writeAll, ih]
      simp [PlayThroughSampleBuffer.write]

lemma read_no_underrun (b : PlayThroughSampleBuffer) (k : Nat)
    (h : k ≤ min b.samples_left.length b.samples_right.length) :
    b.read k = ((b.samples_left.take k, b.samples_right.take k),
      ⟨b.samples_left.drop k, b.samples_right.drop k⟩) := by
  unfold PlayThroughSampleBuffer.read
  rw [if_neg (by omega)]

lemma readAll_no_underrun (ks : List Nat) :
    ∀ b : PlayThroughSampleBuffer,
      ks.sum ≤ min b.samples_left.length b.samples_right.length →
      readAll b ks =
        ((b.samples_left.take ks.sum, b.samples_right.take ks.sum),
          ⟨b.samples_left.drop ks.sum, b.samples_right.drop ks.sum⟩) := by
  induction ks with
  | nil => intro b h; simp [readAll]
  | cons k ks ih =>
      intro b h
      rw [List.sum_cons] at h
      have hstep : b.read k =
          ((b.samples_left.take k, b.samples_right.take k),
            ⟨b.samples_left.drop k, b.samples_right.drop k⟩) :=
        read_no_underrun b k (by omega)
      have hrest := ih ⟨b.samples_left.drop k, b.samples_right.drop k⟩
        (by simp only [List.length_drop]; omega)
      rw [readAll, hstep, hrest]
      simp only [List.sum_cons]
      rw [List.take_add b.samples_left k ks.sum,
        List.take_add b.samples_right k ks.sum,
        List.drop_drop, List.drop_drop]

set_option maxRecDepth 10000 in
/-- C8 counterexample.  The relay buffer created by `fade_in` is
preloaded with 500 silent samples, so after writing the single-sample
blocks ([5], [7]) the first read returns the preload silence, not the
written samples: reading 1 sample gives ([0], [0]) ≠ ([5], [7]). -/
theorem c8_counterexample :
    (((PlayThroughSampleBuffer.init 500).write [5] [7]).read 1).1 = ([0], [0]) ∧
      (((PlayThroughSampleBuffer.init 500).write [5] [7]).read 1).1 ≠
        ([5], [7]) := by
  decide

/-- C8 (amended).  For a relay buffer created with preload `P`: after any
sequence of writes whose channels total `N` samples each, any sequence of
reads whose counts sum to `s ≤ P + N` returns, concatenated, exactly the
first `s` samples of the preload silence followed by the written samples —
per channel, in order.  With `P = 0` and `s = N` this is the claim's
round-trip: the reads return exactly the written samples in order. -/
theorem c8_round_trip (P : Nat) (ws : List (List Int × List Int))
    (ks : List Nat) (N : Nat)
    (hleft : ((ws.map Prod.fst).flatten).length = N)
    (hright : ((ws.map Prod.snd).flatten).length = N)
    (hsum : ks.sum ≤ P + N) :
    (readAll (writeAll (PlayThroughSampleBuffer.init P) ws) ks).1 =
      ((List.replicate P (0 : Int) ++ (ws.map Prod.fst).flatten).take ks.sum,
        (List.replicate P (0 : Int) ++ (ws.map Prod.snd).flatten).take ks.sum) := by
  rw [writeAll_eq]
  have hread := readAll_no_underrun ks
    ⟨(PlayThroughSampleBuffer.init P).samples_left ++ (ws.map Prod.fst).flatten,
      (PlayThroughSampleBuffer.init P).samples_right ++ (ws.map Prod.snd).flatten⟩
    (by
      simp only [List.length_append, PlayThroughSampleBuffer.init,
        PlayThroughSampleBuffer.clear_buffer, List.length_replicate, hleft, hright]
      omega)
  rw [hread]
  rfl

/-- Witness for C8 at preload 0: writing ([1, 2], [4, 5]) then ([3], [6])
and reading in chunks 2, 1 returns exactly ([1, 2, 3], [4, 5, 6]). -/
theorem c8_round_trip_witness :
    (readAll (writeAll (PlayThroughSampleBuffer.init 0)
        [([1, 2], [4, 5]), ([3], [6])]) [2, 1]).1 = ([1, 2, 3], [4, 5, 6]) := by
  have h := c8_round_trip 0 [([1, 2], [4, 5]), ([3], [6])] [2, 1] 3
    (by decide) (by decide) (by decide)
  rw [h]
  decide

set_option maxRecDepth 10000 in
/-- C9.  `write` appends both input arrays whole, so writing a stereo pair
of unequal lengths leaves the two channel sequences with unequal lengths —
even though the method itself logs the mismatch and claims to be
"assuming" the shorter length.  Evaluating the failing input: a fresh
buffer written with left block [1] and right block [1, 2] ends with 501
left samples and 502 right samples. -/
theorem c9_write_invariant_broken :
    (((PlayThroughSampleBuffer.init 500).write [1] [1, 2]).samples_left.length
        = 501) ∧
      (((PlayThroughSampleBuffer.init 500).write [1] [1, 2]).samples_right.length
        = 502) := by
  decide

/-- C10.  Over-reading a tone buffer: if the buffer holds `m` samples per
channel and `k > m` samples are requested, `read` returns the entire
remaining content (blocks of length `m`, shorter than requested) and the
buffer is unchanged, so an immediately repeated read returns the same `m`
samples again. -/
theorem c10_tone_over_read (l r : List Int) (m k : Nat)
    (hl : l.length = m) (hr : r.length = m) (hk : m < k) :
    (ToneSampleBuffer.read ⟨l, r⟩ k).1 = (l, r) ∧
      (ToneSampleBuffer.read ⟨l, r⟩ k).1.1.length = m ∧
      (ToneSampleBuffer.read ⟨l, r⟩ k).1.2.length = m ∧
      (ToneSampleBuffer.read ⟨l, r⟩ k).2 = ⟨l, r⟩ ∧
      ((ToneSampleBuffer.read ⟨l, r⟩ k).2.read k).1 = (l, r) := by
  have hcond : min l.length r.length < k := by omega
  unfold ToneSampleBuffer.read
  rw [if_pos hcond]
  exact ⟨rfl, hl, hr, rfl, by rw [if_pos hcond]⟩

/-- Witness for C10: the tone buffer ([1, 2], [3, 4]) read for 5 samples
returns ([1, 2], [3, 4]) twice in a row. -/
theorem c10_tone_over_read_witness :
    (ToneSampleBuffer.read ⟨[1, 2], [3, 4]⟩ 5).1 = ([1, 2], [3, 4]) ∧
      (ToneSampleBuffer.read ⟨[1, 2], [3, 4]⟩ 5).2 = ⟨[1, 2], [3, 4]⟩ := by
  have h := c10_tone_over_read [1, 2] [3, 4] 2 5 rfl rfl (by decide)
  exact ⟨h.1, h.2.2.2.1⟩

/-! ## The playlist drain (`AudioService.__play_playlist`, audio.py 277-316)

The playback callback keeps a playlist (`List` of sample buffers).
`__play_playlist(frame_count)` pops the front item, reads up to the
remaining need, and re-inserts the (possibly mutated) item at the front
when the need has been met; an empty playlist zero-pads the remainder. -/

/-- A playlist entry: one of the two `SampleBuffer` variants. -/
inductive SampleBufferItem
  | tone : ToneSampleBuffer → SampleBufferItem
  | playThrough : PlayThroughSampleBuffer → SampleBufferItem
deriving DecidableEq

/-- Dynamic dispatch of `SampleBuffer.read`; the result pairs the returned
blocks with the item afterwards (Python mutates the item in place). -/
def SampleBufferItem.read :
    SampleBufferItem → Nat → (List Int × List Int) × SampleBufferItem
  | tone b, k =>
      let r := b.read k
      (r.1, tone r.2)
  | playThrough b, k =>
      let r := b.read k
      (r.1, playThrough r.2)

/-- The body of the `while samples_remaining:` loop of `__play_playlist`.
Each iteration pops the front item (`playlist.pop(0)`), appends
`item_data[:samples_remaining]` to the working blocks, recomputes
`samples_remaining = max(0, frame_count - len(left))` and, when the buffer
is full, re-inserts the popped item at the front (`playlist.insert(0, ...)`)
and returns.  An empty playlist zero-pads the remainder and returns. -/
def play_playlist_go (frame_count : Nat) :
    List SampleBufferItem → List Int → List Int → Nat →
      (List Int × List Int) × List SampleBufferItem
  | [], left, right, samples_remaining =>
      ((left ++ List.replicate samples_remaining 0,
        right ++ List.replicate samples_remaining 0), [])
  | current_item :: rest, left, right, samples_remaining =>
      let item_data := current_item.read samples_remaining
      let left2 := left ++ item_data.1.1.take samples_remaining
      let right2 := right ++ item_data.1.2.take samples_remaining
      let remaining2 := frame_count - left2.length
      if remaining2 = 0 then ((left2, right2), item_data.2 :: rest)
      else play_playlist_go frame_count rest left2 right2 remaining2

/-- Method `__play_playlist(frame_count)` on a given playlist: returns the filled
stereo blocks and the playlist afterwards. -/
def play_playlist (frame_count : Nat) (playlist : List SampleBufferItem) :
    (List Int × List Int) × List SampleBufferItem :=
  if frame_count = 0 then (([], []), playlist)
  else play_playlist_go frame_count playlist [] [] frame_count

/-- Repeated playback-callback drains with the given chunk sizes,
concatenating the produced blocks. -/
def drainChunks :
    List Nat → List SampleBufferItem →
      (List Int × List Int) × List SampleBufferItem
  | [], playlist => (([], []), playlist)
  | c :: cs, playlist =>
      let step := play_playlist c playlist
      let rest := drainChunks cs step.2
      ((step.1.1 ++ rest.1.1, step.1.2 ++ rest.1.2), rest.2)

/-- C3 counterexample.  A tone item holding exactly `frame_count` samples
is consumed whole (nothing is left in it after the read) and yet it *is*
pushed back to the front of the playlist: re-insertion is keyed on the
frame being full, not on the item having samples left, refuting the
claimed "if and only if". -/
theorem c3_counterexample :
    play_playlist 2 [SampleBufferItem.tone ⟨[1, 2], [1, 2]⟩] =
        (([1, 2], [1, 2]), [SampleBufferItem.tone ⟨[], []⟩]) ∧
      (SampleBufferItem.tone (⟨[], []⟩ : ToneSampleBuffer)).read 1 =
        (([], []), SampleBufferItem.tone ⟨[], []⟩) := by
  decide

lemma tone_read_consume (l r : List Int) (k : Nat)
    (hk : k ≤ min l.length r.length) :
    ToneSampleBuffer.read ⟨l, r⟩ k =
      ((l.take k, r.take k), ⟨l.drop k, r.drop k⟩) := by
  unfold ToneSampleBuffer.read
  dsimp only
  rw [if_neg (by omega)]

lemma tone_read_over_ask (l r : List Int) (k : Nat)
    (hk : min l.length r.length < k) :
    ToneSampleBuffer.read ⟨l, r⟩ k = ((l, r), ⟨l, r⟩) := by
  unfold ToneSampleBuffer.read
  dsimp only
  rw [if_pos hk]

lemma play_playlist_filled (l r : List Int) (rest : List SampleBufferItem)
    (fc : Nat) (hfc : 0 < fc) (hl : fc ≤ l.length) (hr :
      fc ≤ r.length) :
    play_playlist fc (SampleBufferItem.tone ⟨l, r⟩ :: rest) =
      ((l.take fc, r.take fc),
        SampleBufferItem.tone ⟨l.drop fc, r.drop fc⟩ :: rest) := by
  have hread : (SampleBufferItem.tone ⟨l, r⟩).read fc =
      ((l.take fc, r.take fc),
        SampleBufferItem.tone ⟨l.drop fc, r.drop fc⟩) := by
    simp only [SampleBufferItem.read]
    rw [tone_read_consume l r fc (by omega)]
  unfold play_playlist
  rw [if_neg (by omega)]
  unfold play_playlist_go
  rw [hread]
  simp only [List.nil_append, List.take_take, Nat.min_self, List.length_take,
    Nat.min_eq_left hl, Nat.sub_self]
  rw [if_pos trivial]

lemma play_playlist_exhausted (l r : List Int) (fc : Nat)
    (heq : l.length = r.length) (hlt : l.length < fc) :
    play_playlist fc [SampleBufferItem.tone ⟨l, r⟩] =
      ((l ++ List.replicate (fc - l.length) 0,
        r ++ List.replicate (fc - r.length) 0), []) := by
  have hread : (SampleBufferItem.tone ⟨l, r⟩).read fc =
      ((l, r), SampleBufferItem.tone ⟨l, r⟩) := by
    simp only [SampleBufferItem.read]
    rw [tone_read_over_ask l r fc (by omega)]
  unfold play_playlist
  rw [if_neg (by omega)]
  unfold play_playlist_go
  rw [hread]
  simp only [List.nil_append]
  rw [List.take_of_length_le (le_of_lt hlt),
    List.take_of_length_le (le_of_lt (heq ▸ hlt))]
  rw [if_neg (by omega)]
  unfold play_playlist_go
  rw [heq]

lemma drainChunks_tone (cs : List Nat) :
    ∀ l r : List Int, l.length = r.length → cs.sum = l.length →
      (drainChunks cs [SampleBufferItem.tone ⟨l, r⟩]).1 = (l, r) := by
  induction cs with
  | nil =>
      intro l r heq hsum
      simp only [List.sum_nil] at hsum
      have hl : l = [] := List.length_eq_zero.mp hsum.symm
      have hr : r = [] := List.length_eq_zero.mp (by omega)
      rw [hl, hr]
      rfl
  | cons c cs ih =>
      intro l r heq hsum
      rw [List.sum_cons] at hsum
      by_cases hc : c = 0
      · subst hc
        have hstep : play_playlist 0 [SampleBufferItem.tone ⟨l, r⟩] =
            (([], []), [SampleBufferItem.tone ⟨l, r⟩]) := rfl
        unfold drainChunks
        rw [hstep]
        have := ih l r heq (by omega)
        simp only [this, List.nil_append]
      · have hle : c ≤ l.length := by omega
        have hstep := play_playlist_filled l r [] c (by omega) hle (by omega)
        unfold drainChunks
        rw [hstep]
        have hrest := ih (l.drop c) (r.drop c)
          (by simp only [List.length_drop]; omega)
          (by simp only [List.length_drop]; omega)
        simp only [hrest]
        rw [List.take_append_drop, List.take_append_drop]

/-- C3 (amended).  The playlist drain pops the front item and reads up to
the remaining need from it, but pushes the item back to the front exactly
when the read *satisfied the need* — so an item emptied by an exactly-sized
read is also pushed back (to be discarded on a later fill), not only items
with samples left.  Zero-padding happens only when the queue empties before
the need is met, an item is never read past its own length, and draining
one tone buffer of length `L` in chunks summing to `L` reproduces the
tone's exact sample sequence with no inserted zeros. -/
theorem c3_playlist_drain :
    (∀ (l r : List Int) (rest : List SampleBufferItem) (fc : Nat),
        0 < fc → fc ≤ l.length → fc ≤ r.length →
        play_playlist fc (SampleBufferItem.tone ⟨l, r⟩ :: rest) =
          ((l.take fc, r.take fc),
            SampleBufferItem.tone ⟨l.drop fc, r.drop fc⟩ :: rest)) ∧
      (∀ (l r : List Int) (fc : Nat), l.length = r.length → l.length < fc →
        play_playlist fc [SampleBufferItem.tone ⟨l, r⟩] =
          ((l ++ List.replicate (fc - l.length) 0,
            r ++ List.replicate (fc - r.length) 0), [])) ∧
      (∀ (cs : List Nat) (l r : List Int), l.length = r.length →
        cs.sum = l.length →
        (drainChunks cs [SampleBufferItem.tone ⟨l, r⟩]).1 = (l, r)) :=
  ⟨play_playlist_filled, play_playlist_exhausted,
    fun cs => drainChunks_tone cs⟩

/-- Witness for C3 (amended): the tone 1,2,3,4 drained in chunks 2,1,1 is
reproduced exactly; a tone with one sample left after a 1-sample fill is
pushed back holding its remaining sample. -/
theorem c3_playlist_drain_witness :
    (drainChunks [2, 1, 1] [SampleBufferItem.tone ⟨[1, 2, 3, 4], [1, 2, 3, 4]⟩]).1 =
        ([1, 2, 3, 4], [1, 2, 3, 4]) ∧
      play_playlist 1 [SampleBufferItem.tone ⟨[5, 6], [5, 6]⟩] =
        (([5], [5]), [SampleBufferItem.tone ⟨[6], [6]⟩]) :=
  ⟨c3_playlist_drain.2.2 [2, 1, 1] [1, 2, 3, 4] [1, 2, 3, 4] rfl rfl,
    c3_playlist_drain.1 [5, 6] [5, 6] [] 1 (by decide) (by decide) (by decide)⟩

/-! ## AudioService state machine (`src/services/audio.py`)

The engine fields relevant to the claims.  Python attributes that are only
*annotated* on the class and never assigned until some method runs
(`__stream_in`, `__stream_out`, `__buffer`) are modelled with an outer
`Option`: `none` means the attribute does not exist yet (reading it raises
`AttributeError`), `some none` means it was assigned Python `None`, and
`some (some ())` a live stream object. -/

inductive AudioEngineState
  | stopped
  | started
  | error
  | fadeIn
  | fadeOut
  | relaying
deriving DecidableEq

/-- The host-API enum (`AudioEngine` in audio.py, wrapping the PortAudio
host API constants). -/
inductive AudioEngine
  | pulseAudio
  | alsa
  | asio
  | beOS
  | coreAudio
  | directSound
  | inDevelopment
  | jack
  | mme
  | oss
  | soundManager
  | wasapi
  | wdmks
deriving DecidableEq

structure SoundCard where
  channels : Nat
  engine : AudioEngine
  id : Nat
  name : String
deriving DecidableEq

/-- A log event produced by an operation (only the warning/no-warning
distinction matters to the claims). -/
inductive AudioEvent
  | warning
deriving DecidableEq

structure AudioService where
  state : AudioEngineState
  buffer : Option PlayThroughSampleBuffer
  playlist : List SampleBufferItem
  stream_in : Option (Option Unit)
  stream_out : Option (Option Unit)
  input_device : Option SoundCard
  output_device : Option SoundCard
deriving DecidableEq

namespace AudioService

/-- The instance built on the first call of `AudioService.instance()`
(audio.py lines 86-98): devices `None`, state `Stopped`, empty playlist
(class attribute default) — and `__buffer`, `__stream_in`, `__stream_out`
left unassigned. -/
def freshInstance : AudioService :=
  { state := .stopped
    buffer := none
    playlist := []
    stream_in := none
    stream_out := none
    input_device := none
    output_device := none }

/-- Method `fade_in()` (audio.py lines 398-407): from any state other than
`Started` it only logs a warning; from `Started` it creates a fresh relay
buffer (default preload 500) and moves to `FadeIn`. -/
def fade_in (s : AudioService) : AudioService × List AudioEvent :=
  if s.state = .started then
    ({ s with
        buffer := some (PlayThroughSampleBuffer.init 500)
        state := .fadeIn }, [])
  else (s, [.warning])

/-- Method `fade_out()` (audio.py lines 409-417): from any state other than
`Relaying` it only logs a warning; from `Relaying` it moves to `FadeOut`. -/
def fade_out (s : AudioService) : AudioService × List AudioEvent :=
  if s.state = .relaying then ({ s with state := .fadeOut }, [])
  else (s, [.warning])

/-- The observable steps `stop()` performs, in order. -/
inductive StopEvent
  | fadeOutCall
  | closeStreamIn
  | closeStreamOut
deriving DecidableEq

/-- Method `stop()` (audio.py lines 154-167): if the state is `Relaying`, call
`fade_out()` first; then close and `None` out each stream that is truthy.
Reading `self.__stream_in` / `self.__stream_out` when the attribute was
never assigned raises `AttributeError` (modelled as `Except.error`).
Note `stop()` never assigns `self.__state`. -/
def stop (s : AudioService) : Except String (AudioService × List StopEvent) :=
  let s1 := if s.state = .relaying then (fade_out s).1 else s
  let tr1 : List StopEvent :=
    if s.state = .relaying then [.fadeOutCall] else []
  match s1.stream_in with
  | none => .error "AttributeError: stream_in"
  | some stin =>
      let s2 := if stin.isSome then { s1 with stream_in := some none } else s1
      let tr2 := if stin.isSome then tr1 ++ [.closeStreamIn] else tr1
      match s2.stream_out with
      | none => .error "AttributeError: stream_out"
      | some stout =>
          let s3 :=
            if stout.isSome then { s2 with stream_out := some none } else s2
          let tr3 := if stout.isSome then tr2 ++ [.closeStreamOut] else tr2
          .ok (s3, tr3)

end AudioService

/-- C4.  Calling `fade_in()` in any state other than `Started`, and
`fade_out()` in any state other than `Relaying`, is a no-op: the whole
engine record (state, relay buffer, playlist, streams, devices) is
unchanged and exactly one warning event is produced. -/
theorem c4_invalid_fade_transitions (s : AudioService) :
    (s.state ≠ .started →
      AudioService.fade_in s = (s, [AudioEvent.warning])) ∧
      (s.state ≠ .relaying →
        AudioService.fade_out s = (s, [AudioEvent.warning])) := by
  constructor
  · intro h
    unfold AudioService.fade_in
    rw [if_neg h]
  · intro h
    unfold AudioService.fade_out
    rw [if_neg h]

/-- Witness for C4: on the freshly created (Stopped) instance both fades
are warnings and no-ops. -/
theorem c4_invalid_fade_transitions_witness :
    AudioService.fade_in AudioService.freshInstance =
        (AudioService.freshInstance, [AudioEvent.warning]) ∧
      AudioService.fade_out AudioService.freshInstance =
        (AudioService.freshInstance, [AudioEvent.warning]) :=
  ⟨(c4_invalid_fade_transitions AudioService.freshInstance).1 (by decide),
    (c4_invalid_fade_transitions AudioService.freshInstance).2 (by decide)⟩

/-- C5 counterexample.  `stop()` from `Relaying` (streams open) fades out
first and closes both streams, but the engine state it leaves behind is
`FadeOut` — `stop()` never assigns the state, so the engine state never
reaches `Stopped` at all. -/
theorem c5_counterexample :
    AudioService.stop
        ⟨.relaying, none, [], some (some ()), some (some ()), none, none⟩ =
      Except.ok
        ((⟨.fadeOut, none, [], some none, some none, none, none⟩ :
            AudioService),
          [.fadeOutCall, .closeStreamIn, .closeStreamOut]) ∧
      AudioEngineState.fadeOut ≠ AudioEngineState.stopped := by
  constructor
  · rfl
  · decide

/-- C5 (amended).  Whenever `stop()` is called while the engine is
`Relaying` and returns normally, `fade_out()` is invoked before any stream
is closed (it is the first event of the trace and occurs exactly once),
and the resulting engine state is `FadeOut` — having passed
Relaying → FadeOut before teardown.  `stop()` itself never sets the state
to `Stopped`, so in particular there is no direct Relaying → Stopped
transition. -/
theorem c5_stop_fades_out_before_close
    (bu : Option PlayThroughSampleBuffer) (pl : List SampleBufferItem)
    (stin stout : Option Unit) (ind outd : Option SoundCard)
    (s2 : AudioService) (tr : List AudioService.StopEvent)
    (hok : AudioService.stop
        ⟨.relaying, bu, pl, some stin, some stout, ind, outd⟩ =
      Except.ok (s2, tr)) :
    tr.head? = some .fadeOutCall ∧
      AudioService.StopEvent.fadeOutCall ∉ tr.tail ∧
      s2.state = .fadeOut ∧ s2.state ≠ .stopped := by
  rcases stin with _ | u <;> rcases stout with _ | v
  · have hstop : AudioService.stop
        ⟨.relaying, bu, pl, some none, some none, ind, outd⟩ =
        Except.ok
          ((⟨.fadeOut, bu, pl, some none, some none, ind, outd⟩ :
              AudioService),
            [AudioService.StopEvent.fadeOutCall]) := rfl
    rw [hstop] at hok
    have hpair := Except.ok.inj hok
    rw [Prod.mk.injEq] at hpair
    obtain ⟨hs, ht⟩ := hpair
    subst hs
    subst ht
    exact ⟨rfl, by decide, rfl, by simp⟩
  · have hstop : AudioService.stop
        ⟨.relaying, bu, pl, some none, some (some v), ind, outd⟩ =
        Except.ok
          ((⟨.fadeOut, bu, pl, some none, some none, ind, outd⟩ :
              AudioService),
            [AudioService.StopEvent.fadeOutCall, .closeStreamOut]) := rfl
    rw [hstop] at hok
    have hpair := Except.ok.inj hok
    rw [Prod.mk.injEq] at hpair
    obtain ⟨hs, ht⟩ := hpair
    subst hs
    subst ht
    exact ⟨rfl, by decide, rfl, by simp⟩
  · have hstop : AudioService.stop
        ⟨.relaying, bu, pl, some (some u), some none, ind, outd⟩ =
        Except.ok
          ((⟨.fadeOut, bu, pl, some none, some none, ind, outd⟩ :
              AudioService),
            [AudioService.StopEvent.fadeOutCall, .closeStreamIn]) := rfl
    rw [hstop] at hok
    have hpair := Except.ok.inj hok
    rw [Prod.mk.injEq] at hpair
    obtain ⟨hs, ht⟩ := hpair
    subst hs
    subst ht
    exact ⟨rfl, by decide, rfl, by simp⟩
  · have hstop : AudioService.stop
        ⟨.relaying, bu, pl, some (some u), some (some v), ind, outd⟩ =
        Except.ok
          ((⟨.fadeOut, bu, pl, some none, some none, ind, outd⟩ :
              AudioService),
            [AudioService.StopEvent.fadeOutCall, .closeStreamIn,
              .closeStreamOut]) := rfl
    rw [hstop] at hok
    have hpair := Except.ok.inj hok
    rw [Prod.mk.injEq] at hpair
    obtain ⟨hs, ht⟩ := hpair
    subst hs
    subst ht
    exact ⟨rfl, by decide, rfl, by simp⟩

/-- Witness for C5 (amended), at a concrete Relaying engine with both
streams open. -/
theorem c5_stop_fades_out_before_close_witness :
    ([AudioService.StopEvent.fadeOutCall, .closeStreamIn,
        .closeStreamOut].head? = some .fadeOutCall) ∧
      AudioService.StopEvent.fadeOutCall ∉
        [AudioService.StopEvent.fadeOutCall, .closeStreamIn,
          .closeStreamOut].tail ∧
      (⟨.fadeOut, none, [], some none, some none, none, none⟩ :
          AudioService).state = .fadeOut ∧
      (⟨.fadeOut, none, [], some none, some none, none, none⟩ :
          AudioService).state ≠ .stopped :=
  c5_stop_fades_out_before_close none [] (some ()) (some ()) none none
    ⟨.fadeOut, none, [], some none, some none, none, none⟩
    [.fadeOutCall, .closeStreamIn, .closeStreamOut] rfl

/-- C6.  Evaluating `stop()` at the failing input: on a fresh instance
whose streams were never opened (`start()` never ran, so `__stream_in`
was never assigned), `stop()` raises `AttributeError` instead of
tolerating the absent streams. -/
theorem c6_stop_without_streams_raises :
    AudioService.stop AudioService.freshInstance =
      Except.error "AttributeError: stream_in" := by
  rfl

end NetSource
